import Mathlib

/-!
Shallow embedding of `src/packages/runtime/src/dataLoader.ts` (the client-side
data-loader orchestration cache of the `ice` runtime), together with theorems
settling the specification claims about it.

Modelling conventions:
* A JavaScript value is a `JSVal`.  A promise is modelled by its eventual
  settled outcome (`promiseOk` / `promiseErr`); `awaitV` is JS `await`
  (flattening promises, passing plain values through).
* `Promise.all` over a list is modelled by `awaitAll`: it resolves to the
  ordered list of results, and rejects with the first (in list order)
  rejection.  (Real `Promise.all` rejects with the first rejection *in time*;
  no claim depends on which member's error is reported.)
* Synchronous exceptions are the `Except Err` layer: a function-form loader
  `run` may throw synchronously (`.error`) or return a value/promise (`.ok`);
  calling the unset `dataLoaderFetcher` throws a synchronous `TypeError`.
* Loader invocations are observable as an `Event` trace (`fnCall name` for a
  function-form loader tagged with `name`, `fetcherCall` for a dispatch to the
  custom fetcher), so "the loader is invoked exactly once" is a statement
  about traces.
* The module-level `cache` (`new Map<string, CachedResult>()`) is an
  association list with `Map.set` semantics (`cacheSet` replaces in place or
  appends); it starts empty at page load.
* `getData` is an `async` function: it never throws synchronously; its result
  `GetDataRes` records the loader-invocation trace of the call, the cache
  after the call (the code never writes the cache inside `getData`, which the
  translation makes explicit by returning it), and the settled outcome of the
  returned promise.
-/

namespace Ice.DataLoader

/-- Error values (JS exceptions / rejection reasons), modelled as messages. -/
abbrev Err := String

/-- JavaScript values, with promises represented by their settled outcome. -/
inductive JSVal where
  | null
  | bool (b : Bool)
  | num (n : Int)
  | str (s : String)
  | obj (fields : List (String × JSVal))
  | arr (elems : List JSVal)
  | promiseOk (v : JSVal)
  | promiseErr (e : Err)

/-- JS truthiness (`if (dataFromSSR)`): objects, arrays and promises are
truthy; `null`, `false`, `0` and `""` are falsy. -/
def truthy : JSVal → Bool
  | .null => false
  | .bool b => b
  | .num n => n != 0
  | .str s => s != ""
  | .obj _ => true
  | .arr _ => true
  | .promiseOk _ => true
  | .promiseErr _ => true

/-- JS `await`: a promise yields its settled outcome (flattened), a plain
value passes through. -/
def awaitV : JSVal → Except Err JSVal
  | .promiseOk v => awaitV v
  | .promiseErr e => .error e
  | .null => .ok .null
  | .bool b => .ok (.bool b)
  | .num n => .ok (.num n)
  | .str s => .ok (.str s)
  | .obj fields => .ok (.obj fields)
  | .arr elems => .ok (.arr elems)

/-- Settled outcome of `Promise.all` over a list of values: the ordered list
of results, or the first (in list order) rejection. -/
def awaitAll : List JSVal → Except Err (List JSVal)
  | [] => .ok []
  | v :: vs =>
    match awaitV v with
    | .error e => .error e
    | .ok x =>
      match awaitAll vs with
      | .error e => .error e
      | .ok xs => .ok (x :: xs)

/-- The promise returned by `Promise.all(loaders)`: resolves to the ordered
array of the individual results. -/
def promiseAllVal (ps : List JSVal) : JSVal :=
  match awaitAll ps with
  | .ok xs => .promiseOk (.arr xs)
  | .error e => .promiseErr e

/-- `Array.isArray`. -/
def JSVal.isArr : JSVal → Bool
  | .arr _ => true
  | _ => false

/-- The current navigable location (`window.location`), opaque to this core. -/
structure Location where
  href : String

/-- Modelled from the spec: `getRequestContext` (imported from
`requestContext.js`, which is not under `src/`) builds the per-request context
object from a location; per spec section 6 it is "produced by an external
collaborator and opaque to this core beyond being passed through". -/
structure RequestContext where
  loc : Location

def getRequestContext (loc : Location) : RequestContext := ⟨loc⟩

/-- A function-form loader, tagged with a name so invocations are observable.
`run` may throw synchronously (`.error`) or return a value or promise. -/
structure LoaderFn where
  name : String
  run : RequestContext → Except Err JSVal

/-- One element of a loader declaration: a function, or an opaque descriptor
object consumed by the custom fetcher (`typeof loader === 'object'`). -/
inductive DataLoaderItem where
  | fn (f : LoaderFn)
  | descriptor (config : JSVal)

/-- A loader declaration (`DataLoaderConfig`): `Array.isArray(dataLoader)`
distinguishes the batch form; otherwise the `typeof === 'object'` test
distinguishes descriptor form from function form. -/
inductive DataLoaderConfig where
  | single (item : DataLoaderItem)
  | batch (items : List DataLoaderItem)

/-- Observable side effects of resolving loader declarations. -/
inductive Event where
  | fnCall (name : String)
  | fetcherCall
deriving DecidableEq

/-- Number of invocations of the function-form loader named `n` in a trace. -/
def countFn (tr : List Event) (n : String) : Nat :=
  match tr with
  | [] => 0
  | .fnCall m :: rest => (if m = n then 1 else 0) + countFn rest n
  | .fetcherCall :: rest => countFn rest n

/-- The custom fetcher: takes the descriptor object, returns a value or
promise. -/
abbrev Fetcher := JSVal → JSVal

/-- Result of a synchronous computation: the loader invocations it performed
and either its value or the exception it threw. -/
structure SyncRes (α : Type) where
  trace : List Event
  result : Except Err α

/-- The synchronous `TypeError` raised by calling the unset module binding
`dataLoaderFetcher`. -/
def fetcherUnsetErr : Err := "TypeError: dataLoaderFetcher is not a function"

/-- `loadDataByCustomFetcher(config)`: calls the globally registered fetcher
(`dataLoaderFetcher`, here passed explicitly as `fetcher`); throws a
synchronous `TypeError` when none has been registered. -/
def loadDataByCustomFetcher (fetcher : Option Fetcher) (config : JSVal) : SyncRes JSVal :=
  match fetcher with
  | none => ⟨[], .error fetcherUnsetErr⟩
  | some f => ⟨[.fetcherCall], .ok (f config)⟩

/-- Resolving one loader element: `typeof loader === 'object'` dispatches to
the custom fetcher, otherwise `loader(requestContext)` is invoked. -/
def callLoaderItem (fetcher : Option Fetcher) (item : DataLoaderItem)
    (ctx : RequestContext) : SyncRes JSVal :=
  match item with
  | .descriptor c => loadDataByCustomFetcher fetcher c
  | .fn f => ⟨[.fnCall f.name], f.run ctx⟩

/-- The `dataLoader.map(...)` step of the batch form: elements are invoked in
order; a synchronous throw aborts the map (elements before it were already
invoked, elements after it are not). -/
def mapLoaderItems (fetcher : Option Fetcher) (items : List DataLoaderItem)
    (ctx : RequestContext) : SyncRes (List JSVal) :=
  match items with
  | [] => ⟨[], .ok []⟩
  | item :: rest =>
    let r := callLoaderItem fetcher item ctx
    match r.result with
    | .error e => ⟨r.trace, .error e⟩
    | .ok p =>
      let rs := mapLoaderItems fetcher rest ctx
      ⟨r.trace ++ rs.trace, rs.result.map (fun ps => p :: ps)⟩

/-- `callDataLoader(dataLoader, requestContext)`: batch form maps the elements
and wraps them in `Promise.all`; single forms dispatch per `callLoaderItem`. -/
def callDataLoader (fetcher : Option Fetcher) (dl : DataLoaderConfig)
    (ctx : RequestContext) : SyncRes JSVal :=
  match dl with
  | .batch items =>
    let r := mapLoaderItems fetcher items ctx
    ⟨r.trace, r.result.map promiseAllVal⟩
  | .single item => callLoaderItem fetcher item ctx

/-- A cache record: `{ value, status }` with `status` one of `'LOADING'`,
`'RESOLVED'`. -/
structure CachedResult where
  value : JSVal
  status : String

/-- The module-level `cache: Map<string, CachedResult>`, as an association
list. -/
abbrev Cache := List (String × CachedResult)

/-- `cache.get(key)`. -/
def cacheGet (c : Cache) (k : String) : Option CachedResult :=
  match c with
  | [] => none
  | (k2, v) :: rest => if k2 = k then some v else cacheGet rest k

/-- `cache.set(key, record)`: replaces an existing binding in place, otherwise
appends (JS `Map` insertion-order semantics). -/
def cacheSet (c : Cache) (k : String) (v : CachedResult) : Cache :=
  match c with
  | [] => [(k, v)]
  | (k2, v2) :: rest => if k2 = k then (k, v) :: rest else (k2, v2) :: cacheSet rest k v

/-- The loader config mapping route ids to loader declarations. -/
abbrev Loaders := List (String × DataLoaderConfig)

/-- `loaders[id]` (the subsequent `if (dataLoader)` truthiness test is the
`Option` match: declarations themselves are always truthy). -/
def lookupLoader (loaders : Loaders) (id : String) : Option DataLoaderConfig :=
  match loaders with
  | [] => none
  | (k, dl) :: rest => if k = id then some dl else lookupLoader rest id

/-- The embedded page context `window.__ICE_APP_CONTEXT__` after the
`|| []` / `|| {}` defaulting of its fields (`renderMode` may be absent). -/
structure AppContext where
  matchedIds : List String
  routesData : List (String × JSVal)
  renderMode : Option String

/-- `routesData[id]`. -/
def lookupData (rd : List (String × JSVal)) (id : String) : Option JSVal :=
  match rd with
  | [] => none
  | (k, v) :: rest => if k = id then some v else lookupData rest id

/-- `dataFromSSR` when the `if (dataFromSSR)` truthiness guard passes. -/
def hydrationData (ctx : AppContext) (id : String) : Option JSVal :=
  match lookupData ctx.routesData id with
  | some d => if truthy d then some d else none
  | none => none

/-- The key of the hydration write: `` `${id}_ssg` `` when
`renderMode === 'SSG'`, else `id`. -/
def hydrationKey (ctx : AppContext) (id : String) : String :=
  if ctx.renderMode = some "SSG" then id ++ "_ssg" else id

/-- State threaded through cache seeding: the cache plus the trace of loader
invocations made so far. -/
structure SeedSt where
  cache : Cache
  trace : List Event

/-- The loader-invocation tail of the `ids.forEach` body: look up the loader
declaration and, when present, call it and write a `LOADING` record under
`id`.  A synchronous throw from `callDataLoader` propagates (`.error`),
carrying the state as already mutated. -/
def seedLoader (loaders : Loaders) (fetcher : Option Fetcher) (loc : Location)
    (st : SeedSt) (id : String) : Except (Err × SeedSt) SeedSt :=
  match lookupLoader loaders id with
  | none => .ok st
  | some dl =>
    match callDataLoader fetcher dl (getRequestContext loc) with
    | ⟨tr, .error e⟩ => .error (e, ⟨st.cache, st.trace ++ tr⟩)
    | ⟨tr, .ok p⟩ => .ok ⟨cacheSet st.cache id ⟨p, "LOADING"⟩, st.trace ++ tr⟩

/-- The body of `ids.forEach(id => ...)` in `loadInitialDataInClient`: write a
`RESOLVED` record for truthy hydration data (under the `_ssg` key when
`renderMode === 'SSG'`), return early when `renderMode === 'SSR'`, otherwise
fall through to the loader invocation. -/
def seedOne (loaders : Loaders) (fetcher : Option Fetcher) (ctx : AppContext)
    (loc : Location) (st : SeedSt) (id : String) : Except (Err × SeedSt) SeedSt :=
  match hydrationData ctx id with
  | some d =>
    let st1 : SeedSt := ⟨cacheSet st.cache (hydrationKey ctx id) ⟨d, "RESOLVED"⟩, st.trace⟩
    if ctx.renderMode = some "SSR" then .ok st1
    else seedLoader loaders fetcher loc st1 id
  | none => seedLoader loaders fetcher loc st id

/-- `ids.forEach`: processes ids in order; a synchronous throw from the body
aborts the whole iteration (remaining ids are not processed) and the thrown
error is returned beside the state reached at the abort. -/
def seedList (loaders : Loaders) (fetcher : Option Fetcher) (ctx : AppContext)
    (loc : Location) : List String → SeedSt → SeedSt × Option Err
  | [], st => (st, none)
  | id :: rest, st =>
    match seedOne loaders fetcher ctx loc st id with
    | .ok st1 => seedList loaders fetcher ctx loc rest st1
    | .error (e, st1) => (st1, some e)

/-- `loadInitialDataInClient(loaders)`: seeds the (initially empty) cache over
`['_app'].concat(matchedIds)`. -/
def loadInitialDataInClient (loaders : Loaders) (fetcher : Option Fetcher)
    (ctx : AppContext) (loc : Location) : SeedSt × Option Err :=
  seedList loaders fetcher ctx loc ("_app" :: ctx.matchedIds) ⟨[], []⟩

/-- The record as the JS object the `RESOLVED` branch of `getData` returns
(`return result`). -/
def recordToVal (r : CachedResult) : JSVal :=
  .obj [("value", r.value), ("status", .str r.status)]

/-- Result of one `getData` call: the loader invocations it performed, the
cache afterwards (`getData` contains no `cache.set`, which the translation
exhibits by returning the cache), and the settled outcome of its promise. -/
structure GetDataRes where
  trace : List Event
  cache : Cache
  outcome : Except Err JSVal

/-- The Retrieval API `getData(id, options)` installed as
`window.__ICE_DATA_LOADER__.getData`: look up `` `${id}_ssg` `` when
`options?.ssg` is truthy, else `id`; return the record itself when
`status === 'RESOLVED'`; otherwise await the stored value (`Promise.all` when
it is an array); with no record, resolve `null` when no loader declaration
exists, else call the loader on demand (an async function, so a synchronous
throw becomes a rejection). -/
def getData (config : Loaders) (fetcher : Option Fetcher) (loc : Location)
    (cache : Cache) (id : String) (ssg : Bool) : GetDataRes :=
  let key := if ssg then id ++ "_ssg" else id
  match cacheGet cache key with
  | some result =>
    if result.status = "RESOLVED" then
      ⟨[], cache, .ok (recordToVal result)⟩
    else
      match result.value with
      | .arr vs => ⟨[], cache, (awaitAll vs).map .arr⟩
      | v => ⟨[], cache, awaitV v⟩
  | none =>
    match lookupLoader config id with
    | none => ⟨[], cache, .ok .null⟩
    | some dl =>
      let r := callDataLoader fetcher dl (getRequestContext loc)
      ⟨r.trace, cache, r.result.bind awaitV⟩

/-- Settled outcomes of the runtime plugin invocations; `Promise.all` over
them succeeds iff all do (first rejection in list order reported). -/
def pluginsResult : Option (List (Except Err JSVal)) → Except Err Unit
  | none => .ok ()
  | some ms => pluginsAll ms
where
  pluginsAll : List (Except Err JSVal) → Except Err Unit
    | [] => .ok ()
    | .error e :: _ => .error e
    | .ok _ :: rest => pluginsAll rest

/-- Arguments of `init(dataloaderConfig, options)` together with the ambient
page state it reads (`window.__ICE_APP_CONTEXT__`, `window.location`) and the
settled outcomes of the runtime-module invocations. -/
structure InitArgs where
  dataloaderConfig : Loaders
  fetcher : Option Fetcher
  runtimeModules : Option (List (Except Err JSVal))
  appContext : AppContext
  loc : Location

/-- Page state after a completed `init`: the seeded cache, the registered
fetcher, the seeding trace, and the seeding error that was caught and logged
by `console.error` (if any). -/
structure InitState where
  cache : Cache
  fetcher : Option Fetcher
  seedTrace : List Event
  seedError : Option Err

/-- Outcome of `init`: `failed e` means the awaited `Promise.all` over the
runtime modules rejected, so `window.__ICE_DATA_LOADER__` is never assigned;
`installed st` means the Retrieval API was installed with page state `st`. -/
inductive InitOutcome where
  | failed (e : Err)
  | installed (st : InitState)

/-- `init`: await the runtime modules, register the fetcher (the module
binding starts unset, so the effective fetcher is exactly the supplied one),
seed the cache inside `try { ... } catch { console.error(...) }`, then install
the Retrieval API unconditionally. -/
def init (args : InitArgs) : InitOutcome :=
  match pluginsResult args.runtimeModules with
  | .error e => .failed e
  | .ok _ =>
    let seeded := loadInitialDataInClient args.dataloaderConfig args.fetcher
      args.appContext args.loc
    .installed ⟨seeded.1.cache, args.fetcher, seeded.1.trace, seeded.2⟩

/-- Awaiting a value stored in a `LOADING` record, exactly as the tail of
`getData` does: `Promise.all` when the stored value is an array, plain
`await` otherwise. -/
def awaitStored : JSVal → Except Err JSVal
  | .arr vs => (awaitAll vs).map .arr
  | .null => awaitV .null
  | .bool b => awaitV (.bool b)
  | .num n => awaitV (.num n)
  | .str s => awaitV (.str s)
  | .obj fields => awaitV (.obj fields)
  | .promiseOk v => awaitV (.promiseOk v)
  | .promiseErr e => awaitV (.promiseErr e)

/-- Function-form loader names reachable inside a loader declaration (batch
members included); descriptor dispatches are not `fnCall` events. -/
def itemFnNames : List DataLoaderItem → List String
  | [] => []
  | .fn f :: rest => f.name :: itemFnNames rest
  | .descriptor _ :: rest => itemFnNames rest

def dlFnNames : DataLoaderConfig → List String
  | .single (.fn f) => [f.name]
  | .single (.descriptor _) => []
  | .batch items => itemFnNames items

/-- Function-form loader names declared for a given id (empty when no loader
declaration exists). -/
def loaderNamesAt (loaders : Loaders) (id : String) : List String :=
  match lookupLoader loaders id with
  | none => []
  | some dl => dlFnNames dl

/-- The seeding state regardless of whether the `forEach` body returned or
threw. -/
def seedStAfter (x : Except (Err × SeedSt) SeedSt) : SeedSt :=
  match x with
  | .ok st => st
  | .error (_, st) => st

/-- Number of occurrences of a route id in an id list. -/
def countOcc (x : String) : List String → Nat
  | [] => 0
  | y :: rest => (if y = x then 1 else 0) + countOcc x rest

/-- The loader-invocation trace contributed by seeding a given id: empty when
no loader declaration exists, otherwise the trace of `callDataLoader` on the
declaration. -/
def loaderTraceAt (loaders : Loaders) (fetcher : Option Fetcher) (loc : Location)
    (id : String) : List Event :=
  match lookupLoader loaders id with
  | none => []
  | some dl => (callDataLoader fetcher dl (getRequestContext loc)).trace

/-- Concrete scenario (C2): one matched route with an SSG hydration snapshot
and a declared loader. -/
def c2Loaders : Loaders :=
  [("home", .single (.fn ⟨"fetchHome", fun _ => .ok (.promiseOk .null)⟩))]

def c2Ctx : AppContext :=
  ⟨["home"], [("home", .obj [("k", .str "v")])], some "SSG"⟩

/-- Concrete scenario (C3): the spec's example
`matchedIds = ['home']`, `routesData = { _app: {user:'x'} }`,
`renderMode = 'SSR'`, loader config `{ home: fetchHomeData }`. -/
def fetchHomeData : LoaderFn :=
  ⟨"fetchHomeData", fun _ => .ok (.promiseOk (.str "homeData"))⟩

def c3Loaders : Loaders := [("home", .single (.fn fetchHomeData))]

def c3Ctx : AppContext :=
  ⟨["home"], [("_app", .obj [("user", .str "x")])], some "SSR"⟩

/-- Concrete scenario (C4): one matched route, no hydration data, a declared
function-form loader; client-side render. -/
def c4F : LoaderFn := ⟨"fetchHome", fun _ => .ok (.promiseOk (.str "d"))⟩

def c4Loaders : Loaders := [("home", .single (.fn c4F))]

def c4Ctx : AppContext := ⟨["home"], [], none⟩

/-- Concrete scenario (C5): a declared loader for an id never seeded. -/
def c5F : LoaderFn := ⟨"fetchPage", fun _ => .ok (.promiseOk (.num 7))⟩

def c5Loaders : Loaders := [("page", .single (.fn c5F))]

/-- Concrete scenario (C7): a descriptor-form loader declaration. -/
def c7Loaders : Loaders :=
  [("x", .single (.descriptor (.obj [("api", .str "/data")])))]

/-- Concrete scenario (C8): a descriptor-form loader for `_app` and no
registered fetcher, so bootstrap seeding throws synchronously. -/
def c8Args : InitArgs :=
  ⟨[("_app", .single (.descriptor .null))], none, none, ⟨[], [], none⟩, ⟨"/"⟩⟩

/-- Concrete scenario (C9): hydration data and a loader for the same id under
a render mode that is neither SSR nor SSG. -/
def c9F : LoaderFn := ⟨"fetchP", fun _ => .ok (.promiseOk .null)⟩

def c9Loaders : Loaders := [("p", .single (.fn c9F))]

def c9Ctx : AppContext := ⟨["p"], [("p", .obj [("a", .num 1)])], some "CSR"⟩

/-- Concrete scenario (C10): the first matched id's loader is a descriptor
with no fetcher registered (synchronous throw); a second matched id with a
function-form loader follows it. -/
def c10Args : InitArgs :=
  ⟨[("a", .single (.descriptor .null)),
    ("b", .single (.fn ⟨"fb", fun _ => .ok .null⟩))],
   none, none, ⟨["a", "b"], [], none⟩, ⟨"/"⟩⟩

section Lemmas

theorem cacheGet_set_self (c : Cache) (k : String) (v : CachedResult) :
    cacheGet (cacheSet c k v) k = some v := by
  induction c with
  | nil => simp [cacheSet, cacheGet]
  | cons hd tl ih =>
    by_cases h : hd.1 = k
    · simp [cacheSet, h, cacheGet]
    · simp [cacheSet, h, cacheGet, ih]

theorem cacheGet_set_ne (c : Cache) (k k2 : String) (v : CachedResult)
    (h : k ≠ k2) : cacheGet (cacheSet c k v) k2 = cacheGet c k2 := by
  induction c with
  | nil => simp [cacheSet, cacheGet, h]
  | cons hd tl ih =>
    by_cases h2 : hd.1 = k
    · simp [cacheSet, h2, cacheGet, h]
    · simp [cacheSet, h2, cacheGet, ih]

theorem ssg_append_ne_self (s : String) : s ≠ s ++ "_ssg" := by
  intro h
  have h2 := congrArg String.length h
  simp [String.length_append] at h2
  exact absurd h2 (by decide)

theorem ssg_append_cancel {s t : String} (h : s ++ "_ssg" = t ++ "_ssg") :
    s = t := by
  have h2 := congrArg String.data h
  simp [String.data_append] at h2
  exact String.ext h2

theorem countFn_append (t1 t2 : List Event) (n : String) :
    countFn (t1 ++ t2) n = countFn t1 n + countFn t2 n := by
  induction t1 with
  | nil => simp [countFn]
  | cons e rest ih =>
    cases e with
    | fnCall m => simp [countFn, ih]; omega
    | fetcherCall => simp [countFn, ih]

theorem countFn_callLoaderItem_of_notin (fetcher : Option Fetcher)
    (item : DataLoaderItem) (ctx : RequestContext) (n : String)
    (h : n ∉ itemFnNames [item]) :
    countFn (callLoaderItem fetcher item ctx).trace n = 0 := by
  cases item with
  | fn f =>
    simp [itemFnNames] at h
    have hne : ¬f.name = n := fun hc => h hc.symm
    simp [callLoaderItem, countFn, hne]
  | descriptor c =>
    cases fetcher with
    | none => simp [callLoaderItem, loadDataByCustomFetcher, countFn]
    | some f => simp [callLoaderItem, loadDataByCustomFetcher, countFn]

theorem countFn_mapLoaderItems_of_notin (fetcher : Option Fetcher)
    (items : List DataLoaderItem) (ctx : RequestContext) (n : String)
    (h : n ∉ itemFnNames items) :
    countFn (mapLoaderItems fetcher items ctx).trace n = 0 := by
  induction items with
  | nil => simp [mapLoaderItems, countFn]
  | cons item rest ih =>
    have hitem : n ∉ itemFnNames [item] := by
      cases item with
      | fn f =>
        simp [itemFnNames] at h ⊢
        exact h.1
      | descriptor c => simp [itemFnNames]
    have hrest : n ∉ itemFnNames rest := by
      cases item with
      | fn f =>
        simp [itemFnNames] at h
        exact h.2
      | descriptor c =>
        simp [itemFnNames] at h
        exact h
    have h1 := countFn_callLoaderItem_of_notin fetcher item ctx n hitem
    simp only [mapLoaderItems]
    cases hres : (callLoaderItem fetcher item ctx).result with
    | error e => simp [hres, h1]
    | ok p => simp [hres, countFn_append, h1, ih hrest]

theorem countFn_callDataLoader_of_notin (fetcher : Option Fetcher)
    (dl : DataLoaderConfig) (ctx : RequestContext) (n : String)
    (h : n ∉ dlFnNames dl) :
    countFn (callDataLoader fetcher dl ctx).trace n = 0 := by
  cases dl with
  | single item =>
    cases item with
    | fn f =>
      simp [dlFnNames] at h
      exact countFn_callLoaderItem_of_notin fetcher (.fn f) ctx n
        (by simp [itemFnNames]; exact h)
    | descriptor c =>
      exact countFn_callLoaderItem_of_notin fetcher (.descriptor c) ctx n
        (by simp [itemFnNames])
  | batch items =>
    simp [dlFnNames] at h
    simp [callDataLoader, countFn_mapLoaderItems_of_notin fetcher items ctx n h]

theorem callDataLoader_single_fn_trace (fetcher : Option Fetcher) (f : LoaderFn)
    (ctx : RequestContext) :
    (callDataLoader fetcher (.single (.fn f)) ctx).trace = [.fnCall f.name] := by
  simp [callDataLoader, callLoaderItem]

theorem getData_resolved {config : Loaders} {fetcher : Option Fetcher}
    {loc : Location} {cache : Cache} {id : String} {ssg : Bool}
    {r : CachedResult}
    (h : cacheGet cache (if ssg then id ++ "_ssg" else id) = some r)
    (hs : r.status = "RESOLVED") :
    getData config fetcher loc cache id ssg = ⟨[], cache, .ok (recordToVal r)⟩ := by
  simp [getData, h, hs]

theorem getData_loading {config : Loaders} {fetcher : Option Fetcher}
    {loc : Location} {cache : Cache} {id : String} {ssg : Bool}
    {r : CachedResult}
    (h : cacheGet cache (if ssg then id ++ "_ssg" else id) = some r)
    (hs : r.status = "LOADING") :
    getData config fetcher loc cache id ssg = ⟨[], cache, awaitStored r.value⟩ := by
  cases hv : r.value <;> simp [getData, h, hs, hv, awaitStored]

theorem countOcc_pos_of_mem {x : String} {l : List String} (h : x ∈ l) :
    0 < countOcc x l := by
  induction l with
  | nil => simp at h
  | cons y rest ih =>
    rcases List.mem_cons.mp h with h1 | h2
    · simp [countOcc, h1]
    · have := ih h2
      simp [countOcc]
      omega

theorem seedLoader_get_other (loaders : Loaders) (fetcher : Option Fetcher)
    (loc : Location) (st : SeedSt) (id k : String) (h : k ≠ id) :
    cacheGet (seedStAfter (seedLoader loaders fetcher loc st id)).cache k =
      cacheGet st.cache k := by
  unfold seedLoader
  cases hl : lookupLoader loaders id with
  | none => rfl
  | some dl =>
    cases hc : callDataLoader fetcher dl (getRequestContext loc) with
    | mk tr res =>
      cases res with
      | error e => simp [hc, seedStAfter]
      | ok p =>
        simp [hc, seedStAfter, cacheGet_set_ne _ _ _ _ (Ne.symm h)]

theorem seedLoader_trace (loaders : Loaders) (fetcher : Option Fetcher)
    (loc : Location) (st : SeedSt) (id : String) :
    (seedStAfter (seedLoader loaders fetcher loc st id)).trace =
      st.trace ++ loaderTraceAt loaders fetcher loc id := by
  unfold seedLoader loaderTraceAt
  cases hl : lookupLoader loaders id with
  | none => simp [seedStAfter]
  | some dl =>
    cases hc : callDataLoader fetcher dl (getRequestContext loc) with
    | mk tr res =>
      cases res with
      | error e => simp [hc, seedStAfter]
      | ok p => simp [hc, seedStAfter]

theorem seedOne_get_other (loaders : Loaders) (fetcher : Option Fetcher)
    (ctx : AppContext) (loc : Location) (st : SeedSt) (id k : String)
    (h1 : k ≠ id) (h2 : k ≠ id ++ "_ssg") :
    cacheGet (seedStAfter (seedOne loaders fetcher ctx loc st id)).cache k =
      cacheGet st.cache k := by
  unfold seedOne
  cases hd : hydrationData ctx id with
  | none => exact seedLoader_get_other loaders fetcher loc st id k h1
  | some d =>
    have hkey : cacheGet
        (cacheSet st.cache (hydrationKey ctx id) ⟨d, "RESOLVED"⟩) k =
        cacheGet st.cache k := by
      unfold hydrationKey
      by_cases hm : ctx.renderMode = some "SSG"
      · simp [hm, cacheGet_set_ne _ _ _ _ (Ne.symm h2)]
      · simp [hm, cacheGet_set_ne _ _ _ _ (Ne.symm h1)]
    by_cases hssr : ctx.renderMode = some "SSR"
    · simp [hssr, seedStAfter, hkey]
    · simp only [if_neg hssr]
      rw [seedLoader_get_other loaders fetcher loc _ id k h1]
      exact hkey

theorem seedOne_trace (loaders : Loaders) (fetcher : Option Fetcher)
    (ctx : AppContext) (loc : Location) (st : SeedSt) (id : String) :
    (seedStAfter (seedOne loaders fetcher ctx loc st id)).trace =
      st.trace ++
        (if (hydrationData ctx id).isSome = true ∧ ctx.renderMode = some "SSR"
         then []
         else loaderTraceAt loaders fetcher loc id) := by
  unfold seedOne
  cases hd : hydrationData ctx id with
  | none =>
    rw [seedLoader_trace]
    simp [hd]
  | some d =>
    by_cases hssr : ctx.renderMode = some "SSR"
    · simp [hd, hssr, seedStAfter]
    · simp only [if_neg hssr]
      rw [seedLoader_trace]
      simp [hd, hssr]

theorem seedList_cons_none {loaders : Loaders} {fetcher : Option Fetcher}
    {ctx : AppContext} {loc : Location} {id : String} {rest : List String}
    {st st1 : SeedSt}
    (h : seedList loaders fetcher ctx loc (id :: rest) st = (st1, none)) :
    ∃ st2, seedOne loaders fetcher ctx loc st id = .ok st2 ∧
      seedList loaders fetcher ctx loc rest st2 = (st1, none) := by
  unfold seedList at h
  cases hone : seedOne loaders fetcher ctx loc st id with
  | ok st2 =>
    rw [hone] at h
    exact ⟨st2, rfl, h⟩
  | error pair =>
    rw [hone] at h
    cases pair with
    | mk e st2 =>
      simp at h

theorem seedList_get_preserved (loaders : Loaders) (fetcher : Option Fetcher)
    (ctx : AppContext) (loc : Location) (k : String) :
    ∀ ids st st1, seedList loaders fetcher ctx loc ids st = (st1, none) →
      (∀ id2 ∈ ids, k ≠ id2 ∧ k ≠ id2 ++ "_ssg") →
      cacheGet st1.cache k = cacheGet st.cache k := by
  intro ids
  induction ids with
  | nil =>
    intro st st1 h hk
    simp [seedList] at h
    rw [h]
  | cons id2 rest ih =>
    intro st st1 h hk
    obtain ⟨st2, hone, hrest⟩ := seedList_cons_none h
    have hk2 := hk id2 (List.mem_cons_self id2 rest)
    have hstep := seedOne_get_other loaders fetcher ctx loc st id2 k hk2.1 hk2.2
    rw [hone] at hstep
    simp [seedStAfter] at hstep
    rw [ih st2 st1 hrest fun id3 h3 => hk id3 (List.mem_cons_of_mem id2 h3)]
    exact hstep

theorem seedOne_ssg_get (loaders : Loaders) (fetcher : Option Fetcher)
    (loc : Location) (st : SeedSt) {ctx : AppContext} {id : String} {d : JSVal}
    (hm : ctx.renderMode = some "SSG") (hd : hydrationData ctx id = some d) :
    cacheGet (seedStAfter (seedOne loaders fetcher ctx loc st id)).cache
      (id ++ "_ssg") = some ⟨d, "RESOLVED"⟩ := by
  unfold seedOne
  rw [hd]
  have hkey : hydrationKey ctx id = id ++ "_ssg" := by simp [hydrationKey, hm]
  have hssr : ¬ctx.renderMode = some "SSR" := by simp [hm]
  simp only [if_neg hssr]
  rw [seedLoader_get_other loaders fetcher loc _ id (id ++ "_ssg")
    (Ne.symm (ssg_append_ne_self id))]
  rw [hkey]
  exact cacheGet_set_self _ _ _

theorem seedList_ssg_get {loaders : Loaders} {fetcher : Option Fetcher}
    {ctx : AppContext} {loc : Location} {id : String} {d : JSVal}
    (hm : ctx.renderMode = some "SSG") (hd : hydrationData ctx id = some d) :
    ∀ ids st st1, seedList loaders fetcher ctx loc ids st = (st1, none) →
      (id ++ "_ssg") ∉ ids →
      (id ∈ ids ∨ cacheGet st.cache (id ++ "_ssg") = some ⟨d, "RESOLVED"⟩) →
      cacheGet st1.cache (id ++ "_ssg") = some ⟨d, "RESOLVED"⟩ := by
  intro ids
  induction ids with
  | nil =>
    intro st st1 h hnot hstart
    simp [seedList] at h
    rcases hstart with h1 | h2
    · simp at h1
    · rw [← h]; exact h2
  | cons id2 rest ih =>
    intro st st1 h hnot hstart
    obtain ⟨st2, hone, hrest⟩ := seedList_cons_none h
    have hnotrest : (id ++ "_ssg") ∉ rest := fun hmem =>
      hnot (List.mem_cons_of_mem id2 hmem)
    by_cases heq : id2 = id
    · subst heq
      have := seedOne_ssg_get loaders fetcher loc st hm hd
      rw [hone] at this
      simp [seedStAfter] at this
      exact ih st2 st1 hrest hnotrest (Or.inr this)
    · rcases hstart with hmem | hcur
      · rcases List.mem_cons.mp hmem with h1 | h2
        · exact absurd h1.symm heq
        · exact ih st2 st1 hrest hnotrest (Or.inl h2)
      · have hne1 : (id ++ "_ssg") ≠ id2 := fun hc =>
          hnot (hc ▸ List.mem_cons_self id2 rest)
        have hne2 : (id ++ "_ssg") ≠ id2 ++ "_ssg" := fun hc =>
          heq (ssg_append_cancel hc).symm
        have hstep := seedOne_get_other loaders fetcher ctx loc st id2
          (id ++ "_ssg") hne1 hne2
        rw [hone] at hstep
        simp [seedStAfter] at hstep
        exact ih st2 st1 hrest hnotrest (Or.inr (hstep.trans hcur))

theorem seedOne_countFn (loaders : Loaders) (fetcher : Option Fetcher)
    (ctx : AppContext) (loc : Location) (st : SeedSt) (id2 : String) (n : String) :
    countFn (seedStAfter (seedOne loaders fetcher ctx loc st id2)).trace n =
      countFn st.trace n +
        (if (hydrationData ctx id2).isSome = true ∧ ctx.renderMode = some "SSR"
         then 0
         else countFn (loaderTraceAt loaders fetcher loc id2) n) := by
  rw [seedOne_trace, countFn_append]
  by_cases h : (hydrationData ctx id2).isSome = true ∧ ctx.renderMode = some "SSR"
  · simp [h, countFn]
  · simp [h]

theorem seedList_countFn {loaders : Loaders} {fetcher : Option Fetcher}
    {ctx : AppContext} {loc : Location} {id : String} {f : LoaderFn}
    (hl : lookupLoader loaders id = some (.single (.fn f)))
    (h5 : hydrationData ctx id = none ∨ ctx.renderMode ≠ some "SSR") :
    ∀ ids st st1, seedList loaders fetcher ctx loc ids st = (st1, none) →
      (∀ id2 ∈ ids, id2 ≠ id → f.name ∉ loaderNamesAt loaders id2) →
      countFn st1.trace f.name = countFn st.trace f.name + countOcc id ids := by
  intro ids
  induction ids with
  | nil =>
    intro st st1 h hfresh
    simp [seedList] at h
    rw [h, countOcc]
    omega
  | cons id2 rest ih =>
    intro st st1 h hfresh
    obtain ⟨st2, hone, hrest⟩ := seedList_cons_none h
    have hcnt := seedOne_countFn loaders fetcher ctx loc st id2 f.name
    rw [hone] at hcnt
    simp only [seedStAfter] at hcnt
    have hrec := ih st2 st1 hrest
      fun id3 h3 => hfresh id3 (List.mem_cons_of_mem id2 h3)
    by_cases heq : id2 = id
    · subst heq
      have hcond : ¬((hydrationData ctx id2).isSome = true ∧
          ctx.renderMode = some "SSR") := by
        rcases h5 with h5a | h5b
        · simp [h5a]
        · simp [h5b]
      rw [if_neg hcond] at hcnt
      have htr : loaderTraceAt loaders fetcher loc id2 = [.fnCall f.name] := by
        simp [loaderTraceAt, hl, callDataLoader_single_fn_trace]
      rw [htr] at hcnt
      simp [countFn] at hcnt
      rw [hrec, hcnt]
      simp [countOcc]
      omega
    · have hzero : countFn (loaderTraceAt loaders fetcher loc id2) f.name = 0 := by
        cases hl2 : lookupLoader loaders id2 with
        | none => simp [loaderTraceAt, hl2, countFn]
        | some dl =>
          have hni : f.name ∉ dlFnNames dl := by
            have := hfresh id2 (List.mem_cons_self id2 rest) heq
            simpa [loaderNamesAt, hl2] using this
          simp [loaderTraceAt, hl2,
            countFn_callDataLoader_of_notin fetcher dl _ f.name hni]
      rw [hzero] at hcnt
      simp at hcnt
      rw [hrec, hcnt]
      simp [countOcc, heq]

theorem seedLoader_loading {loaders : Loaders} {fetcher : Option Fetcher}
    {loc : Location} {st st2 : SeedSt} {id : String} {f : LoaderFn}
    (hl : lookupLoader loaders id = some (.single (.fn f)))
    (hok : seedLoader loaders fetcher loc st id = .ok st2) :
    ∃ p, f.run (getRequestContext loc) = .ok p ∧
      cacheGet st2.cache id = some ⟨p, "LOADING"⟩ := by
  unfold seedLoader at hok
  rw [hl] at hok
  simp only [callDataLoader, callLoaderItem] at hok
  cases hr : f.run (getRequestContext loc) with
  | error e => rw [hr] at hok; simp at hok
  | ok p =>
    rw [hr] at hok
    simp at hok
    refine ⟨p, rfl, ?_⟩
    rw [← hok]
    exact cacheGet_set_self _ _ _

theorem seedOne_loading {loaders : Loaders} {fetcher : Option Fetcher}
    {ctx : AppContext} {loc : Location} {st st2 : SeedSt} {id : String}
    {f : LoaderFn}
    (hl : lookupLoader loaders id = some (.single (.fn f)))
    (h5 : hydrationData ctx id = none ∨ ctx.renderMode ≠ some "SSR")
    (hok : seedOne loaders fetcher ctx loc st id = .ok st2) :
    ∃ p, f.run (getRequestContext loc) = .ok p ∧
      cacheGet st2.cache id = some ⟨p, "LOADING"⟩ := by
  unfold seedOne at hok
  cases hd : hydrationData ctx id with
  | none =>
    rw [hd] at hok
    exact seedLoader_loading hl hok
  | some d =>
    have hssr : ¬ctx.renderMode = some "SSR" := by
      rcases h5 with h5a | h5b
      · rw [hd] at h5a; simp at h5a
      · exact h5b
    rw [hd] at hok
    simp only [if_neg hssr] at hok
    exact seedLoader_loading hl hok

theorem seedList_loading {loaders : Loaders} {fetcher : Option Fetcher}
    {ctx : AppContext} {loc : Location} {id : String} {f : LoaderFn}
    (hl : lookupLoader loaders id = some (.single (.fn f)))
    (h5 : hydrationData ctx id = none ∨ ctx.renderMode ≠ some "SSR") :
    ∀ ids st st1, seedList loaders fetcher ctx loc ids st = (st1, none) →
      countOcc id ids = 1 →
      (∀ id2 ∈ ids, id ≠ id2 ++ "_ssg") →
      ∃ p, f.run (getRequestContext loc) = .ok p ∧
        cacheGet st1.cache id = some ⟨p, "LOADING"⟩ := by
  intro ids
  induction ids with
  | nil =>
    intro st st1 h hcount hkeys
    simp [countOcc] at hcount
  | cons id2 rest ih =>
    intro st st1 h hcount hkeys
    obtain ⟨st2, hone, hrest⟩ := seedList_cons_none h
    by_cases heq : id2 = id
    · subst heq
      have hrest0 : countOcc id2 rest = 0 := by
        simp [countOcc] at hcount
        omega
      have hnotmem : id2 ∉ rest := fun hmem => by
        have := countOcc_pos_of_mem hmem
        omega
      obtain ⟨p, hp, hget⟩ := seedOne_loading hl h5 hone
      refine ⟨p, hp, ?_⟩
      rw [seedList_get_preserved loaders fetcher ctx loc id2 rest st2 st1 hrest
        ?_]
      · exact hget
      · intro id3 h3
        constructor
        · intro hc; exact hnotmem (hc ▸ h3)
        · exact hkeys id3 (List.mem_cons_of_mem id2 h3)
    · have hcount2 : countOcc id rest = 1 := by
        simp [countOcc, heq] at hcount
        exact hcount
      exact ih st2 st1 hrest hcount2
        fun id3 h3 => hkeys id3 (List.mem_cons_of_mem id2 h3)

theorem seedList_append_ok {loaders : Loaders} {fetcher : Option Fetcher}
    {ctx : AppContext} {loc : Location} :
    ∀ xs ys st st1, seedList loaders fetcher ctx loc xs st = (st1, none) →
      seedList loaders fetcher ctx loc (xs ++ ys) st =
        seedList loaders fetcher ctx loc ys st1 := by
  intro xs
  induction xs with
  | nil =>
    intro ys st st1 h
    simp [seedList] at h
    rw [List.nil_append, h]
  | cons id2 rest ih =>
    intro ys st st1 h
    obtain ⟨st2, hone, hrest⟩ := seedList_cons_none h
    simp only [List.cons_append, seedList, hone]
    exact ih ys st2 st1 hrest

theorem seedList_cons_error {loaders : Loaders} {fetcher : Option Fetcher}
    {ctx : AppContext} {loc : Location} {id : String} {rest : List String}
    {st st2 : SeedSt} {e : Err}
    (hone : seedOne loaders fetcher ctx loc st id = .error (e, st2)) :
    seedList loaders fetcher ctx loc (id :: rest) st = (st2, some e) := by
  simp [seedList, hone]

theorem seedLoader_ok_eq {loaders : Loaders} {fetcher : Option Fetcher}
    {loc : Location} {st : SeedSt} {id : String} {dl : DataLoaderConfig}
    {tr : List Event} {p : JSVal}
    (hl : lookupLoader loaders id = some dl)
    (hc : callDataLoader fetcher dl (getRequestContext loc) = ⟨tr, .ok p⟩) :
    seedLoader loaders fetcher loc st id =
      .ok ⟨cacheSet st.cache id ⟨p, "LOADING"⟩, st.trace ++ tr⟩ := by
  simp [seedLoader, hl, hc]

theorem awaitStored_arr (vs : List JSVal) :
    awaitStored (.arr vs) = (awaitAll vs).map .arr := rfl

theorem awaitStored_of_not_arr {v : JSVal} (h : v.isArr = false) :
    awaitStored v = awaitV v := by
  cases v <;> first
    | rfl
    | simp [JSVal.isArr] at h

theorem getData_on_demand {config : Loaders} {fetcher : Option Fetcher}
    {loc : Location} {cache : Cache} {id : String} {ssg : Bool}
    {dl : DataLoaderConfig}
    (h1 : cacheGet cache (if ssg then id ++ "_ssg" else id) = none)
    (h2 : lookupLoader config id = some dl) :
    getData config fetcher loc cache id ssg =
      ⟨(callDataLoader fetcher dl (getRequestContext loc)).trace, cache,
        (callDataLoader fetcher dl (getRequestContext loc)).result.bind awaitV⟩ := by
  simp [getData, h1, h2]

end Lemmas

section Claims

/-- C1: for every call `getData(id, options)`, if a cache record exists at the
looked-up key (`"<id>_ssg"` when `options.ssg` is set, else `id`), then: when
the record's status is `'RESOLVED'`, `getData` resolves with the record itself
(the `{value, status}` object, not the bare value) and invokes no loader; when
the status is `'LOADING'`, `getData` resolves with the unwrapped value — if
the stored value is a sequence of pending values it resolves with the ordered
sequence of all their results, otherwise with the result of the single
pending value. -/
theorem claim_C1_cached_record_retrieval {config : Loaders}
    {fetcher : Option Fetcher} {loc : Location} {cache : Cache} {id : String}
    {ssg : Bool} {r : CachedResult}
    (h : cacheGet cache (if ssg then id ++ "_ssg" else id) = some r) :
    (r.status = "RESOLVED" →
      getData config fetcher loc cache id ssg =
        ⟨[], cache, .ok (recordToVal r)⟩) ∧
    (r.status = "LOADING" →
      (∀ vs, r.value = .arr vs →
        getData config fetcher loc cache id ssg =
          ⟨[], cache, (awaitAll vs).map .arr⟩) ∧
      (r.value.isArr = false →
        getData config fetcher loc cache id ssg =
          ⟨[], cache, awaitV r.value⟩)) := by
  refine ⟨fun hs => getData_resolved h hs, fun hs => ⟨?_, ?_⟩⟩
  · intro vs hv
    rw [getData_loading h hs, hv, awaitStored_arr]
  · intro hv
    rw [getData_loading h hs, awaitStored_of_not_arr hv]

/-- Witness for C1: a cache holding a `RESOLVED` record for id `a` makes
`getData('a')` resolve with the record itself. -/
theorem claim_C1_witness :
    getData [] none ⟨"/"⟩ [("a", ⟨.str "v", "RESOLVED"⟩)] "a" false =
      ⟨[], [("a", ⟨.str "v", "RESOLVED"⟩)],
        .ok (recordToVal ⟨.str "v", "RESOLVED"⟩)⟩ :=
  (claim_C1_cached_record_retrieval (by rfl)).1 rfl

/-- C5: for an id with no cache record but an existing loader declaration,
the on-demand path of `getData(id)` leaves the cache unchanged, so two
successive `getData(id)` calls each invoke the loader independently (for a
function-form loader, two invocations in total). -/
theorem claim_C5_on_demand_no_dedup {config : Loaders} {fetcher : Option Fetcher}
    {loc : Location} {cache : Cache} {id : String} {dl : DataLoaderConfig}
    (h1 : cacheGet cache id = none)
    (h2 : lookupLoader config id = some dl) :
    (getData config fetcher loc cache id false).cache = cache ∧
    (getData config fetcher loc cache id false).trace =
      (callDataLoader fetcher dl (getRequestContext loc)).trace ∧
    (∀ f, dl = .single (.fn f) →
      countFn ((getData config fetcher loc cache id false).trace ++
          (getData config fetcher loc
            (getData config fetcher loc cache id false).cache id false).trace)
        f.name = 2) := by
  have e1 : getData config fetcher loc cache id false =
      ⟨(callDataLoader fetcher dl (getRequestContext loc)).trace, cache,
        (callDataLoader fetcher dl (getRequestContext loc)).result.bind awaitV⟩ :=
    getData_on_demand
      (show cacheGet cache (if false then id ++ "_ssg" else id) = none by
        simpa using h1) h2
  refine ⟨by rw [e1], by rw [e1], ?_⟩
  intro f hf
  subst hf
  have hc : (getData config fetcher loc cache id false).cache = cache := by
    rw [e1]
  rw [hc, e1, callDataLoader_single_fn_trace, countFn_append]
  simp [countFn]

/-- Witness for C5: id `page` with a declared loader and an empty cache; both
calls invoke `fetchPage`, two invocations in total, cache untouched. -/
theorem claim_C5_witness :
    (getData c5Loaders none ⟨"/"⟩ [] "page" false).cache = [] ∧
    (getData c5Loaders none ⟨"/"⟩ [] "page" false).trace =
      (callDataLoader none (.single (.fn c5F)) (getRequestContext ⟨"/"⟩)).trace ∧
    (∀ f, DataLoaderConfig.single (.fn c5F) = .single (.fn f) →
      countFn ((getData c5Loaders none ⟨"/"⟩ [] "page" false).trace ++
          (getData c5Loaders none ⟨"/"⟩
            (getData c5Loaders none ⟨"/"⟩ [] "page" false).cache "page"
            false).trace)
        f.name = 2) :=
  claim_C5_on_demand_no_dedup rfl rfl

/-- C6: for an id with no cache record at the looked-up key and no loader
declaration, `getData(id)` resolves to `null` (a non-error result), invoking
no loader or fetcher (empty trace). -/
theorem claim_C6_null_without_loader {config : Loaders} {fetcher : Option Fetcher}
    {loc : Location} {cache : Cache} {id : String} {ssg : Bool}
    (h1 : cacheGet cache (if ssg then id ++ "_ssg" else id) = none)
    (h2 : lookupLoader config id = none) :
    getData config fetcher loc cache id ssg = ⟨[], cache, .ok .null⟩ := by
  simp [getData, h1, h2]

/-- Witness for C6: unknown id on an empty cache and empty loader config. -/
theorem claim_C6_witness :
    getData [] none ⟨"/"⟩ [] "missing" false = ⟨[], [], .ok .null⟩ :=
  claim_C6_null_without_loader rfl rfl

/-- C7: resolving a descriptor-form loader declaration while no custom
fetcher is registered fails with the configuration error
(`dataLoaderFetcher` is not callable), and through the on-demand path of
`getData` that error surfaces to the awaiting caller as a rejection. -/
theorem claim_C7_missing_fetcher {config : Loaders} {loc : Location}
    {cache : Cache} {id : String} {c : JSVal}
    (h1 : cacheGet cache id = none)
    (h2 : lookupLoader config id = some (.single (.descriptor c))) :
    loadDataByCustomFetcher none c = ⟨[], .error fetcherUnsetErr⟩ ∧
    getData config none loc cache id false =
      ⟨[], cache, .error fetcherUnsetErr⟩ := by
  refine ⟨rfl, ?_⟩
  have e1 : getData config none loc cache id false =
      ⟨(callDataLoader none (.single (.descriptor c)) (getRequestContext loc)).trace,
        cache,
        (callDataLoader none (.single (.descriptor c))
          (getRequestContext loc)).result.bind awaitV⟩ :=
    getData_on_demand
      (show cacheGet cache (if false then id ++ "_ssg" else id) = none by
        simpa using h1) h2
  rw [e1]
  rfl

/-- Witness for C7: descriptor-form loader for id `x`, no fetcher set. -/
theorem claim_C7_witness :
    loadDataByCustomFetcher none (.obj [("api", .str "/data")]) =
      ⟨[], .error fetcherUnsetErr⟩ ∧
    getData c7Loaders none ⟨"/"⟩ [] "x" false =
      ⟨[], [], .error fetcherUnsetErr⟩ :=
  claim_C7_missing_fetcher rfl rfl

/-- C8: for every error thrown synchronously during bootstrap cache seeding,
`init` catches and logs the error (recorded in `seedError`) and still
installs the Retrieval API: a failing loader during seeding never prevents
`getData` from becoming available. -/
theorem claim_C8_seed_error_still_installs (args : InitArgs) (st : SeedSt)
    (e : Err)
    (hp : pluginsResult args.runtimeModules = .ok ())
    (hs : loadInitialDataInClient args.dataloaderConfig args.fetcher
      args.appContext args.loc = (st, some e)) :
    init args = .installed ⟨st.cache, args.fetcher, st.trace, some e⟩ := by
  simp [init, hp, hs]

/-- Witness for C8: seeding `_app` throws (descriptor loader, no fetcher);
`init` still installs the API and records the logged error. -/
theorem claim_C8_witness :
    init c8Args = .installed ⟨[], none, [], some fetcherUnsetErr⟩ :=
  claim_C8_seed_error_still_installs c8Args ⟨[], []⟩ fetcherUnsetErr rfl rfl

/-- C2: for every route id in `matchedIds` with a (truthy) `routesData` entry
under `renderMode = 'SSG'`, provided bootstrap seeding ran to completion and
no processed id collides with the `"<id>_ssg"` key namespace, the seeded
cache holds the hydration snapshot under `"<id>_ssg"` with status
`'RESOLVED'`, and `getData(id, {ssg:true})` resolves to that record while
invoking no loader (empty trace). -/
theorem claim_C2_ssg_snapshot (loaders : Loaders) (fetcher : Option Fetcher)
    (ctx : AppContext) (loc : Location) (st : SeedSt) (id : String) (d : JSVal)
    (hm : ctx.renderMode = some "SSG")
    (hmem : id ∈ ctx.matchedIds)
    (hd : lookupData ctx.routesData id = some d)
    (ht : truthy d = true)
    (hfresh : (id ++ "_ssg") ∉ "_app" :: ctx.matchedIds)
    (hseed : loadInitialDataInClient loaders fetcher ctx loc = (st, none)) :
    cacheGet st.cache (id ++ "_ssg") = some ⟨d, "RESOLVED"⟩ ∧
    getData loaders fetcher loc st.cache id true =
      ⟨[], st.cache, .ok (recordToVal ⟨d, "RESOLVED"⟩)⟩ := by
  have hhyd : hydrationData ctx id = some d := by simp [hydrationData, hd, ht]
  have hseed2 : seedList loaders fetcher ctx loc ("_app" :: ctx.matchedIds)
      ⟨[], []⟩ = (st, none) := by
    simpa [loadInitialDataInClient] using hseed
  have hget : cacheGet st.cache (id ++ "_ssg") = some ⟨d, "RESOLVED"⟩ :=
    seedList_ssg_get hm hhyd ("_app" :: ctx.matchedIds) ⟨[], []⟩ st hseed2
      hfresh (Or.inl (List.mem_cons_of_mem _ hmem))
  exact ⟨hget, getData_resolved (by simpa using hget) rfl⟩

/-- Witness for C2: SSG page with hydration data and a declared loader for
the single matched id `home`. -/
theorem claim_C2_witness :
    cacheGet (loadInitialDataInClient c2Loaders none c2Ctx ⟨"/"⟩).1.cache
        ("home" ++ "_ssg") =
      some ⟨.obj [("k", .str "v")], "RESOLVED"⟩ ∧
    getData c2Loaders none ⟨"/"⟩
        (loadInitialDataInClient c2Loaders none c2Ctx ⟨"/"⟩).1.cache "home"
        true =
      ⟨[], (loadInitialDataInClient c2Loaders none c2Ctx ⟨"/"⟩).1.cache,
        .ok (recordToVal ⟨.obj [("k", .str "v")], "RESOLVED"⟩)⟩ :=
  claim_C2_ssg_snapshot c2Loaders none c2Ctx ⟨"/"⟩
    (loadInitialDataInClient c2Loaders none c2Ctx ⟨"/"⟩).1 "home"
    (.obj [("k", .str "v")]) rfl (by decide) rfl rfl (by decide) rfl

/-- C3 counterexample: in the spec's example scenario
(`matchedIds = ['home']`, `routesData = { _app: {user:'x'} }`,
`renderMode = 'SSR'`, loader config `{ home: fetchHomeData }`) bootstrap
seeding itself invokes `fetchHomeData` once: `home` has no hydration data, so
the SSR early-return does not apply to it and its loader is called.  This
falsifies the claim's conjunct that `fetchHomeData` is never invoked. -/
theorem claim_C3_counterexample :
    (loadInitialDataInClient c3Loaders none c3Ctx ⟨"/"⟩).1.trace =
      [.fnCall "fetchHomeData"] ∧
    countFn (loadInitialDataInClient c3Loaders none c3Ctx ⟨"/"⟩).1.trace
      "fetchHomeData" = 1 := ⟨rfl, rfl⟩

/-- C3 (amended): in the same scenario, after bootstrap `getData('_app')`
resolves to `{value: {user:'x'}, status:'RESOLVED'}` and that `getData` call
invokes no loader; `fetchHomeData` is invoked exactly once, by bootstrap
seeding of `home` (not by the `getData('_app')` call). -/
theorem claim_C3_amended :
    (loadInitialDataInClient c3Loaders none c3Ctx ⟨"/"⟩).2 = none ∧
    countFn (loadInitialDataInClient c3Loaders none c3Ctx ⟨"/"⟩).1.trace
      "fetchHomeData" = 1 ∧
    getData c3Loaders none ⟨"/"⟩
        (loadInitialDataInClient c3Loaders none c3Ctx ⟨"/"⟩).1.cache "_app"
        false =
      ⟨[], (loadInitialDataInClient c3Loaders none c3Ctx ⟨"/"⟩).1.cache,
        .ok (.obj [("value", .obj [("user", .str "x")]),
                   ("status", .str "RESOLVED")])⟩ :=
  ⟨rfl, rfl, rfl⟩

/-- C4: for a route id seeded with a `LOADING` record during bootstrap (a
declared function-form loader, not short-circuited by SSR hydration, id
occurring once among the seeded ids, its loader name not declared elsewhere,
and no other id's `_ssg` hydration key colliding with it), the loader is
invoked exactly once in total, at seeding time; the seeded record stores the
loader's pending value, and any subsequent `getData(id)` call invokes no
loader (empty trace), leaves the cache unchanged, and resolves by awaiting
that same stored pending value. -/
theorem claim_C4_bootstrap_dedup (loaders : Loaders) (fetcher : Option Fetcher)
    (ctx : AppContext) (loc : Location) (st : SeedSt) (id : String)
    (f : LoaderFn)
    (hl : lookupLoader loaders id = some (.single (.fn f)))
    (h5 : hydrationData ctx id = none ∨ ctx.renderMode ≠ some "SSR")
    (hcount : countOcc id ("_app" :: ctx.matchedIds) = 1)
    (hfresh : ∀ id2 ∈ "_app" :: ctx.matchedIds, id2 ≠ id →
      f.name ∉ loaderNamesAt loaders id2)
    (hkeys : ∀ id2 ∈ "_app" :: ctx.matchedIds, id ≠ id2 ++ "_ssg")
    (hseed : loadInitialDataInClient loaders fetcher ctx loc = (st, none)) :
    countFn st.trace f.name = 1 ∧
    ∃ p, f.run (getRequestContext loc) = .ok p ∧
      cacheGet st.cache id = some ⟨p, "LOADING"⟩ ∧
      getData loaders fetcher loc st.cache id false =
        ⟨[], st.cache, awaitStored p⟩ := by
  have hseed2 : seedList loaders fetcher ctx loc ("_app" :: ctx.matchedIds)
      ⟨[], []⟩ = (st, none) := by
    simpa [loadInitialDataInClient] using hseed
  have hcnt := seedList_countFn hl h5 ("_app" :: ctx.matchedIds) ⟨[], []⟩ st
    hseed2 hfresh
  obtain ⟨p, hp, hget⟩ := seedList_loading hl h5 ("_app" :: ctx.matchedIds)
    ⟨[], []⟩ st hseed2 hcount hkeys
  refine ⟨?_, p, hp, hget, ?_⟩
  · rw [hcnt, hcount]
    rfl
  · have hget2 : cacheGet st.cache (if (false : Bool) then id ++ "_ssg" else id) =
        some (⟨p, "LOADING"⟩ : CachedResult) := by simpa using hget
    exact getData_loading hget2 rfl

/-- Witness for C4: CSR page with matched id `home` and loader `fetchHome`;
after bootstrap the trace holds exactly one `fetchHome` invocation and
`getData('home')` awaits the stored pending value without invoking it
again. -/
theorem claim_C4_witness :
    countFn (loadInitialDataInClient c4Loaders none c4Ctx ⟨"/"⟩).1.trace
      c4F.name = 1 ∧
    ∃ p, c4F.run (getRequestContext ⟨"/"⟩) = .ok p ∧
      cacheGet (loadInitialDataInClient c4Loaders none c4Ctx ⟨"/"⟩).1.cache
        "home" = some ⟨p, "LOADING"⟩ ∧
      getData c4Loaders none ⟨"/"⟩
          (loadInitialDataInClient c4Loaders none c4Ctx ⟨"/"⟩).1.cache "home"
          false =
        ⟨[], (loadInitialDataInClient c4Loaders none c4Ctx ⟨"/"⟩).1.cache,
          awaitStored p⟩ :=
  claim_C4_bootstrap_dedup c4Loaders none c4Ctx ⟨"/"⟩
    (loadInitialDataInClient c4Loaders none c4Ctx ⟨"/"⟩).1 "home" c4F
    rfl (Or.inl rfl) (by decide)
    (by intro id2 hmem hne
        fin_cases hmem
        · intro hc
          simp [loaderNamesAt, lookupLoader, c4Loaders] at hc
        · exact absurd rfl hne)
    (by decide) rfl

/-- C9: for a route id with truthy hydration data, a loader declaration, and
a render mode that is neither `'SSR'` nor `'SSG'` (e.g. CSR), bootstrap
seeding first writes a `RESOLVED` record with the hydration data under key
`id` and then immediately overwrites that same key with a `LOADING` record
from a fresh loader invocation, discarding the hydration data at key `id`. -/
theorem claim_C9_csr_hydration_discarded {loaders : Loaders}
    {fetcher : Option Fetcher} {ctx : AppContext} {loc : Location} {st : SeedSt}
    {id : String} {d : JSVal} {dl : DataLoaderConfig} {tr : List Event}
    {p : JSVal}
    (hd : hydrationData ctx id = some d)
    (hssr : ctx.renderMode ≠ some "SSR")
    (hssg : ctx.renderMode ≠ some "SSG")
    (hl : lookupLoader loaders id = some dl)
    (hc : callDataLoader fetcher dl (getRequestContext loc) = ⟨tr, .ok p⟩) :
    seedOne loaders fetcher ctx loc st id =
      .ok ⟨cacheSet (cacheSet st.cache id ⟨d, "RESOLVED"⟩) id ⟨p, "LOADING"⟩,
        st.trace ++ tr⟩ ∧
    cacheGet (cacheSet (cacheSet st.cache id ⟨d, "RESOLVED"⟩) id
      ⟨p, "LOADING"⟩) id = some ⟨p, "LOADING"⟩ := by
  have hkey : hydrationKey ctx id = id := by simp [hydrationKey, hssg]
  refine ⟨?_, cacheGet_set_self _ _ _⟩
  simp [seedOne, hd, hssr, seedLoader_ok_eq hl hc, hkey]

/-- Witness for C9: CSR render mode, hydration data and loader `fetchP` both
present for id `p`; the final record under `p` is the loader's `LOADING`
record, not the hydration snapshot. -/
theorem claim_C9_witness :
    seedOne c9Loaders none c9Ctx ⟨"/"⟩ ⟨[], []⟩ "p" =
      .ok ⟨cacheSet (cacheSet [] "p" ⟨.obj [("a", .num 1)], "RESOLVED"⟩) "p"
          ⟨.promiseOk .null, "LOADING"⟩,
        [] ++ [.fnCall "fetchP"]⟩ ∧
    cacheGet (cacheSet (cacheSet [] "p" ⟨.obj [("a", .num 1)], "RESOLVED"⟩)
      "p" ⟨.promiseOk .null, "LOADING"⟩) "p" =
      some ⟨.promiseOk .null, "LOADING"⟩ :=
  claim_C9_csr_hydration_discarded rfl (by decide) (by decide) rfl rfl

/-- C10: if resolving the loader for some id during bootstrap seeding throws
synchronously (for example a descriptor-form loader with no fetcher
registered), no id after it in `['_app'] ++ matchedIds` is seeded at all —
the bootstrap result is exactly the state at the abort, independent of the
remaining ids — although the Retrieval API is still installed afterwards
with the error logged. -/
theorem claim_C10_seed_abort (args : InitArgs) (pre post : List String)
    (k : String) (st1 st2 : SeedSt) (e : Err)
    (hp : pluginsResult args.runtimeModules = .ok ())
    (hids : "_app" :: args.appContext.matchedIds = pre ++ k :: post)
    (hpre : seedList args.dataloaderConfig args.fetcher args.appContext
      args.loc pre ⟨[], []⟩ = (st1, none))
    (hk : seedOne args.dataloaderConfig args.fetcher args.appContext args.loc
      st1 k = .error (e, st2)) :
    loadInitialDataInClient args.dataloaderConfig args.fetcher args.appContext
      args.loc = (st2, some e) ∧
    init args = .installed ⟨st2.cache, args.fetcher, st2.trace, some e⟩ := by
  have hmain : loadInitialDataInClient args.dataloaderConfig args.fetcher
      args.appContext args.loc = (st2, some e) := by
    unfold loadInitialDataInClient
    rw [hids, seedList_append_ok pre (k :: post) ⟨[], []⟩ st1 hpre,
      seedList_cons_error hk]
  exact ⟨hmain, by simp [init, hp, hmain]⟩

/-- Witness for C10: matched ids `['a','b']`; seeding `a` throws (descriptor
loader, no fetcher), so `b` is never seeded — the final cache is empty and
holds neither a hydration nor a `LOADING` record for `b` — yet the API is
installed. -/
theorem claim_C10_witness :
    loadInitialDataInClient c10Args.dataloaderConfig c10Args.fetcher
      c10Args.appContext c10Args.loc = (⟨[], []⟩, some fetcherUnsetErr) ∧
    init c10Args = .installed ⟨[], none, [], some fetcherUnsetErr⟩ :=
  claim_C10_seed_abort c10Args ["_app"] ["b"] "a" ⟨[], []⟩ ⟨[], []⟩
    fetcherUnsetErr rfl rfl rfl rfl

end Claims

end Ice.DataLoader
